import Mathlib

/-!
Verification of the quiz authoring / attempt / scoring core of an
e-learning portal (Flask + SQLAlchemy, `main.py`).

The relational store is embedded as lists of rows (one list per table, in
insertion order, which is how the ORM relationships enumerate children).
Auto-increment primary keys are modelled as `max id + 1`.  HTTP form data
(`request.form`) is a finite association list of string keys to string
values; `get` returns the first value for a key.  Python floats are
modelled as rationals.  Timestamps are not modelled (no claim depends on
them); an attempt's completion is a boolean flag.  Surrogate primary keys
of `AttemptAnswer` rows are omitted: nothing reads them.
-/

namespace Portal

/-- HTTP form data: finite list of key/value pairs. -/
abbrev Form := List (String × String)

/-- `request.form.get(k)`: first value bound to `k`, if any. -/
def formGet (form : Form) (k : String) : Option String :=
  (form.find? (fun p => p.1 == k)).map Prod.snd

/-- Python truthiness test `not x` for `x : Optional[str]`:
true when the value is missing or the empty string. -/
def blank : Option String → Bool
  | none => true
  | some s => s == ""

/-- Characters Python's default `str.strip()` removes (ASCII fragment;
Unicode spaces are not modelled).  Structurally recursive so that proofs
can evaluate it (`String.trim` is defined by well-founded recursion). -/
def pyIsSpace (c : Char) : Bool :=
  c == ' ' || c == '\t' || c == '\n' || c == '\r' || c == '\x0b' || c == '\x0c'

/-- Python `s.strip()`. -/
def pyStrip (s : String) : String :=
  ⟨((s.data.dropWhile pyIsSpace).reverse.dropWhile pyIsSpace).reverse⟩

/-- Second character onward of a Python int literal body:
digits with single underscores allowed between digits. -/
def digitsTail : List Char → Bool
  | [] => true
  | '_' :: c :: rest => c.isDigit && digitsTail rest
  | c :: rest => c.isDigit && digitsTail rest

/-- Whole body of a Python int literal: nonempty, starts with a digit,
single underscores allowed between digits. -/
def pyIntDigits : List Char → Bool
  | [] => false
  | c :: rest => c.isDigit && digitsTail rest

/-- Decimal value of a digit string (underscores removed beforehand). -/
def digitsVal (l : List Char) : Nat :=
  l.foldl (fun a c => a * 10 + (c.toNat - 48)) 0

/-- Models CPython `int(s)` for a decimal string: optional surrounding
whitespace, optional sign, ASCII digits with underscore grouping.
`none` models the `ValueError` that `int` raises otherwise.
(Non-ASCII digit forms are not modelled.) -/
def pyInt (s : String) : Option Int :=
  match (pyStrip s).data with
  | '-' :: rest =>
      if pyIntDigits rest then
        some (-(digitsVal (rest.filter (fun c => c ≠ '_')) : Int))
      else none
  | '+' :: rest =>
      if pyIntDigits rest then
        some ((digitsVal (rest.filter (fun c => c ≠ '_')) : Int))
      else none
  | l =>
      if pyIntDigits l then
        some ((digitsVal (l.filter (fun c => c ≠ '_')) : Int))
      else none

/-! ## Data model (tables) -/

/-- `Course` row (only the columns the quiz core reads). -/
structure Course where
  id : Nat
  instructor_id : Nat
deriving DecidableEq

/-- `Enrollment` row. -/
structure Enrollment where
  id : Nat
  student_id : Nat
  course_id : Nat
deriving DecidableEq

/-- `Quiz` row. -/
structure Quiz where
  id : Nat
  course_id : Nat
  title : String
deriving DecidableEq

/-- `Question` row. -/
structure Question where
  id : Nat
  quiz_id : Nat
  text : String
deriving DecidableEq

/-- `Choice` row. -/
structure Choice where
  id : Nat
  question_id : Nat
  text : String
  is_correct : Bool
deriving DecidableEq

/-- `Attempt` row.  `score` is nullable; timestamps are reduced to the
`completed` flag (`completed_at IS NOT NULL`). -/
structure Attempt where
  id : Nat
  quiz_id : Nat
  student_id : Nat
  score : Option ℚ
  completed : Bool
deriving DecidableEq

/-- `AttemptAnswer` row.  `choice_id` is an `Int` because `take_quiz`
stores `int(choice_id)` of the raw form value, which may be any integer,
resolving or not. -/
structure AttemptAnswer where
  attempt_id : Nat
  question_id : Nat
  choice_id : Int
deriving DecidableEq

/-- The persistent store: one list of rows per table, in insertion order. -/
structure DB where
  courses : List Course
  enrollments : List Enrollment
  quizzes : List Quiz
  questions : List Question
  choices : List Choice
  attempts : List Attempt
  answers : List AttemptAnswer
deriving DecidableEq

/-- The current actor (`current_user`): id and role string. -/
structure Actor where
  id : Nat
  role : String
deriving DecidableEq

/-- `User.is_instructor`. -/
def Actor.is_instructor (u : Actor) : Bool := u.role == "instructor"

/-- Auto-increment primary key allocation: one more than the largest id. -/
def nextId (ids : List Nat) : Nat := ids.foldl max 0 + 1

/-- `quiz.questions` relationship: the quiz's questions in insertion order. -/
def questionsOf (db : DB) (quizId : Nat) : List Question :=
  db.questions.filter (fun q => q.quiz_id == quizId)

/-- `question.choices` relationship. -/
def choicesOf (db : DB) (questionId : Nat) : List Choice :=
  db.choices.filter (fun c => c.question_id == questionId)

/-- `Choice.query.get(k)`: global primary-key lookup. -/
def resolveChoice (db : DB) (k : Int) : Option Choice :=
  db.choices.find? (fun c => (c.id : Int) == k)

/-! ## Form-key construction (Python f-strings; `str(n)` is `Nat.repr`) -/

/-- `f"q{i}_text"` -/
def qTextKey (i : Nat) : String := "q" ++ Nat.repr i ++ "_text"

/-- `f"q{i}_choice{c}"` -/
def qChoiceKey (i c : Nat) : String := "q" ++ Nat.repr i ++ "_choice" ++ Nat.repr c

/-- `f"q{i}_correct"` -/
def qCorrectKey (i : Nat) : String := "q" ++ Nat.repr i ++ "_correct"

/-- `f"choice{cid}_text"` -/
def choiceTextKey (cid : Nat) : String := "choice" ++ Nat.repr cid ++ "_text"

/-- `f"question_{qid}"` -/
def questionKey (qid : Nat) : String := "question_" ++ Nat.repr qid

/-! ## Quiz authoring: `create_quiz` (POST branch) -/

/-- One question parsed from the authoring form: its 1-based form index,
stripped text, and the parsed choices (stripped text, `is_correct`). -/
structure ParsedQuestion where
  index : Nat
  text : String
  choices : List (String × Bool)
deriving DecidableEq

/-- The inner `for c_index in range(1, 5)` loop of `create_quiz`:
skip missing/empty choice texts; `is_correct` is
`request.form.get(f"q{i}_correct") == str(c_index)`. -/
def parseChoices (form : Form) (i : Nat) : List (String × Bool) :=
  (List.range' 1 4).filterMap (fun c =>
    match formGet form (qChoiceKey i c) with
    | none => none
    | some t =>
        if t == "" then none
        else some (pyStrip t, formGet form (qCorrectKey i) == some (Nat.repr c)))

/-- The `while True` question loop of `create_quiz`, starting at `index`,
stopping at the first missing/empty `q{index}_text`.  The Python loop
terminates because the form is finite; `fuel` bounds the iterations and
`create_quiz` passes `form.length + 1`, which the loop can never exhaust
(processing `fuel` consecutive indices would require `fuel` distinct
present keys, more than the form holds). -/
def parseQuestions (form : Form) : Nat → Nat → List ParsedQuestion
  | 0, _ => []
  | fuel + 1, index =>
      match formGet form (qTextKey index) with
      | none => []
      | some t =>
          if t == "" then []
          else
            { index := index, text := pyStrip t, choices := parseChoices form index }
              :: parseQuestions form fuel (index + 1)

/-- Insert one parsed choice under question `qid`, with an
auto-increment id. -/
def addChoice (qid : Nat) (s : DB) (tc : String × Bool) : DB :=
  let cid := nextId (s.choices.map Choice.id)
  { s with choices := s.choices ++ [{ id := cid, question_id := qid, text := tc.1, is_correct := tc.2 }] }

/-- Insert one parsed question and its choices into the store, with
auto-increment ids (`db.session.add` + `flush`). -/
def addQuestion (quizId : Nat) (st : DB) (p : ParsedQuestion) : DB :=
  let qid := nextId (st.questions.map Question.id)
  let st1 := { st with questions := st.questions ++ [{ id := qid, quiz_id := quizId, text := p.text }] }
  p.choices.foldl (addChoice qid) st1

/-- Outcome of `create_quiz` (POST).  The non-`ok` constructors are the
redirect-with-flash paths; none of them commits any write. -/
inductive CreateResult where
  | notInstructor
  | notFound
  | notOwner
  | missingTitle
  | ok (db : DB) (quizId : Nat)
deriving DecidableEq

/-- `create_quiz` (POST): instructor gate (decorator), course 404 lookup,
ownership check, title validation, then quiz creation and the dynamic
question/choice parsing loop, committed as one unit. -/
def create_quiz (db : DB) (user : Actor) (course_id : Nat) (form : Form) : CreateResult :=
  if user.is_instructor = false then .notInstructor else
  match db.courses.find? (fun c => c.id == course_id) with
  | none => .notFound
  | some course =>
      if course.instructor_id ≠ user.id then .notOwner else
      let title := pyStrip ((formGet form "title").getD "")
      if title == "" then .missingTitle else
      let quizId := nextId (db.quizzes.map Quiz.id)
      let db1 := { db with quizzes := db.quizzes ++ [{ id := quizId, course_id := course.id, title := title }] }
      let parsed := parseQuestions form (form.length + 1) 1
      .ok (parsed.foldl (addQuestion quizId) db1) quizId

/-! ## Attempt engine: `take_quiz` (POST branch) -/

/-- Outcome of `take_quiz` (POST).  `crashed` models the unhandled
`ValueError` from `int()` on a non-numeric selection: the transaction is
never committed, so no constructor argument carries a store. -/
inductive TakeResult where
  | notFound
  | instructorDenied
  | crashed
  | ok (db : DB) (score : ℚ)
deriving DecidableEq

/-- One iteration of the `for question in quiz.questions` loop of
`take_quiz`: accumulated `(correct_count, answers)`; skip a missing/empty
selection; `int()` failure aborts the whole request. -/
def answerStep (db : DB) (form : Form) (aid : Nat)
    (acc : Nat × List AttemptAnswer) (q : Question) :
    Except Unit (Nat × List AttemptAnswer) :=
  match formGet form (questionKey q.id) with
  | none => .ok acc
  | some s =>
      if s == "" then .ok acc
      else
        match pyInt s with
        | none => .error ()
        | some k =>
            let choice := resolveChoice db k
            let cnt := acc.1 + (if (choice.map Choice.is_correct).getD false then 1 else 0)
            let ans : AttemptAnswer :=
              { attempt_id := aid, question_id := q.id,
                choice_id := match choice with | some c => (c.id : Int) | none => k }
            .ok (cnt, acc.2 ++ [ans])

/-- `take_quiz` (POST): quiz 404 lookup, instructor denial, then one
transaction that records an attempt, one answer per answered question,
and the score `(correct_count / total_questions) * 100` (0 for an empty
quiz). -/
def take_quiz (db : DB) (user : Actor) (quiz_id : Nat) (form : Form) : TakeResult :=
  match db.quizzes.find? (fun qz => qz.id == quiz_id) with
  | none => .notFound
  | some quiz =>
      if user.is_instructor then .instructorDenied
      else
        let aid := nextId (db.attempts.map Attempt.id)
        let qs := questionsOf db quiz.id
        match qs.foldlM (answerStep db form aid) (0, []) with
        | .error _ => .crashed
        | .ok res =>
            let total := qs.length
            let score : ℚ := if total ≠ 0 then ((res.1 : ℚ) / (total : ℚ)) * 100 else 0
            let attempt : Attempt :=
              { id := aid, quiz_id := quiz.id, student_id := user.id,
                score := some score, completed := true }
            .ok { db with attempts := db.attempts ++ [attempt],
                          answers := db.answers ++ res.2 } score

/-! ## Quiz authoring: `edit_quiz` (POST branch) -/

/-- Outcome of `edit_quiz` (POST).  `missingCourse` marks a store that
violates the `Quiz.course_id` foreign key (unreachable in a consistent
store; Python would fault on `quiz.course`). -/
inductive EditResult where
  | notInstructor
  | notFound
  | missingCourse
  | notOwner
  | ok (db : DB)
deriving DecidableEq

/-- Per-choice update of `edit_quiz`: optional text replacement, and
`choice.is_correct = bool(correct_choice_id and str(choice.id) == correct_choice_id)`. -/
def editChoice (form : Form) (qid : Nat) (c : Choice) : Choice :=
  let t := pyStrip ((formGet form (choiceTextKey c.id)).getD "")
  let c1 := if t ≠ "" then { c with text := t } else c
  { c1 with is_correct :=
      match formGet form (qCorrectKey qid) with
      | none => false
      | some s => s != "" && Nat.repr c.id == s }

/-- Title update of `edit_quiz`: replace the target quiz's title when a
non-empty one was submitted. -/
def editQuizRow (form : Form) (quiz : Quiz) (qz : Quiz) : Quiz :=
  let newTitle := pyStrip ((formGet form "title").getD "")
  if qz.id == quiz.id then
    (if newTitle ≠ "" then { qz with title := newTitle } else qz)
  else qz

/-- Question-text update of `edit_quiz`, keyed by the question's own id. -/
def editQuestionRow (form : Form) (quiz : Quiz) (q : Question) : Question :=
  if q.quiz_id == quiz.id then
    let t := pyStrip ((formGet form (qTextKey q.id)).getD "")
    if t ≠ "" then { q with text := t } else q
  else q

/-- Choice update of `edit_quiz`: a choice is updated exactly when its
question belongs to the quiz being edited. -/
def editChoiceRow (db : DB) (form : Form) (quiz : Quiz) (c : Choice) : Choice :=
  match db.questions.find? (fun q => q.id == c.question_id && q.quiz_id == quiz.id) with
  | none => c
  | some q => editChoice form q.id c

/-- The store `edit_quiz` commits: in-place update of the quiz's title,
its questions' texts, and its choices' texts and correctness flags. -/
def editedDB (db : DB) (form : Form) (quiz : Quiz) : DB :=
  { db with
      quizzes := db.quizzes.map (editQuizRow form quiz),
      questions := db.questions.map (editQuestionRow form quiz),
      choices := db.choices.map (editChoiceRow db form quiz) }

/-- `edit_quiz` (POST): instructor gate, quiz 404 lookup, ownership check
via the quiz's course, then in-place update of title, question texts,
choice texts and correctness flags, committed as one unit. -/
def edit_quiz (db : DB) (user : Actor) (quiz_id : Nat) (form : Form) : EditResult :=
  if user.is_instructor = false then .notInstructor else
  match db.quizzes.find? (fun qz => qz.id == quiz_id) with
  | none => .notFound
  | some quiz =>
      match db.courses.find? (fun c => c.id == quiz.course_id) with
      | none => .missingCourse
      | some course =>
          if course.instructor_id ≠ user.id then .notOwner else
          .ok (editedDB db form quiz)

/-! ## Result viewer: `view_attempt_result` -/

/-- Python `dict` built by successive insertions: a later binding for the
same key overwrites an earlier one, so lookup finds the last binding. -/
def dictGet {α : Type} (l : List (Nat × α)) (k : Nat) : Option α :=
  (l.reverse.find? (fun p => p.1 == k)).map Prod.snd

/-- Outcome of `view_attempt_result`.  `missingQuiz` marks a store that
violates the `Attempt.quiz_id` foreign key (unreachable in a consistent
store). -/
inductive ViewResult where
  | notFound
  | denied
  | missingQuiz
  | ok (attempt : Attempt) (answersByQ : List (Nat × AttemptAnswer))
       (correctByQ : List (Nat × Choice)) (studentChoiceByQ : List (Nat × Choice))
deriving DecidableEq

/-- `answers_by_q`: the attempt's answers keyed by question id
(`{answer.question_id: answer for answer in attempt.answers}`). -/
def answersByQ (db : DB) (attempt : Attempt) : List (Nat × AttemptAnswer) :=
  (db.answers.filter (fun a => a.attempt_id == attempt.id)).map
    (fun a => (a.question_id, a))

/-- `correct_by_question`: for each question, the first choice flagged
correct, if any. -/
def correctByQ (db : DB) (quizId : Nat) : List (Nat × Choice) :=
  (questionsOf db quizId).foldl (fun m q =>
    match (choicesOf db q.id).find? (fun c => c.is_correct) with
    | some c => m ++ [(q.id, c)]
    | none => m) []

/-- One iteration of the `student_choice_by_question` loop: if question
`q` was answered, look its stored `choice_id` up among the question's
current choices and record the match, if any. -/
def studentChoiceStep (db : DB) (attempt : Attempt)
    (m : List (Nat × Choice)) (q : Question) : List (Nat × Choice) :=
  match dictGet (answersByQ db attempt) q.id with
  | none => m
  | some ans =>
      match (choicesOf db q.id).find? (fun c => (c.id : Int) == ans.choice_id) with
      | some c => m ++ [(q.id, c)]
      | none => m

/-- `student_choice_by_question`: for each answered question, the choice
among the question's current choices whose id equals the stored
`choice_id`, if any. -/
def studentChoiceByQ (db : DB) (attempt : Attempt) (quizId : Nat) : List (Nat × Choice) :=
  (questionsOf db quizId).foldl (studentChoiceStep db attempt) []

/-- `view_attempt_result`: attempt 404 lookup, owner-only permission check,
then the three per-question lookups handed to the template. -/
def view_attempt_result (db : DB) (user : Actor) (attempt_id : Nat) : ViewResult :=
  match db.attempts.find? (fun a => a.id == attempt_id) with
  | none => .notFound
  | some attempt =>
      if user.is_instructor || attempt.student_id != user.id then .denied
      else
        match db.quizzes.find? (fun qz => qz.id == attempt.quiz_id) with
        | none => .missingQuiz
        | some quiz =>
            .ok attempt (answersByQ db attempt) (correctByQ db quiz.id)
              (studentChoiceByQ db attempt quiz.id)

/-! ## Derived specification functions (read off the same source loops) -/

/-- A submitted selection on which `take_quiz` raises `ValueError`:
present, non-empty, but not parsable by `int()`. -/
def badSelection (form : Form) (q : Question) : Bool :=
  match formGet form (questionKey q.id) with
  | none => false
  | some s => !(s == "") && (pyInt s).isNone

/-- Whether `take_quiz` counts question `q` as correctly answered: a
selection was submitted and its globally resolved `Choice` is marked
correct. -/
def answeredCorrectly (db : DB) (form : Form) (q : Question) : Bool :=
  match formGet form (questionKey q.id) with
  | none => false
  | some s =>
      if s == "" then false
      else
        match pyInt s with
        | none => false
        | some k => ((resolveChoice db k).map Choice.is_correct).getD false

/-- The `AttemptAnswer` row that `take_quiz` records for question `q`
(none when no selection is submitted). -/
def answerFor (db : DB) (form : Form) (aid : Nat) (q : Question) : Option AttemptAnswer :=
  match formGet form (questionKey q.id) with
  | none => none
  | some s =>
      if s == "" then none
      else
        match pyInt s with
        | none => none
        | some k =>
            some { attempt_id := aid, question_id := q.id,
                   choice_id := match resolveChoice db k with | some c => (c.id : Int) | none => k }

/-- Replace the enrollments table inside a `take_quiz` outcome. -/
def TakeResult.withEnrollments (e : List Enrollment) : TakeResult → TakeResult
  | .ok d s => .ok { d with enrollments := e } s
  | r => r

/-- The score `take_quiz` computes for `quiz` under `form`:
`(correct_count / total_questions) * 100`, or `0` for an empty quiz. -/
def takeScore (db : DB) (form : Form) (quiz : Quiz) : ℚ :=
  if (questionsOf db quiz.id).length ≠ 0 then
    (((questionsOf db quiz.id).filter (answeredCorrectly db form)).length : ℚ) /
        ((questionsOf db quiz.id).length : ℚ) * 100
  else 0

/-- The attempt row `take_quiz` commits. -/
def newAttempt (db : DB) (form : Form) (quiz : Quiz) (u : Actor) : Attempt :=
  { id := nextId (db.attempts.map Attempt.id), quiz_id := quiz.id,
    student_id := u.id, score := some (takeScore db form quiz), completed := true }

/-- Structural version of base-10 `Nat.toDigits`. -/
def digs (n : Nat) : List Char :=
  if h : n < 10 then [Nat.digitChar n]
  else
    have : n / 10 < n := Nat.div_lt_self (by omega) (by omega)
    digs (n / 10) ++ [Nat.digitChar (n % 10)]

/-- Decode a base-10 digit-character list. -/
def ofDigs (l : List Char) : Nat :=
  l.foldl (fun a c => a * 10 + (c.toNat - 48)) 0

/-! ## Concrete fixtures used by witnesses and counterexamples -/

/-- A store with one course owned by instructor 1. -/
def db0 : DB :=
  { courses := [{ id := 1, instructor_id := 1 }], enrollments := [],
    quizzes := [], questions := [], choices := [], attempts := [], answers := [] }

/-- The instructor who owns course 1. -/
def alice : Actor := { id := 1, role := "instructor" }

/-- A student. -/
def bob : Actor := { id := 2, role := "student" }

/-- A store holding quiz 1 (course 1) with two questions, each with a
correct choice "A" and a wrong choice "B". -/
def quizDB : DB :=
  { courses := [{ id := 1, instructor_id := 1 }], enrollments := [],
    quizzes := [{ id := 1, course_id := 1, title := "T" }],
    questions := [{ id := 1, quiz_id := 1, text := "Q1" }, { id := 2, quiz_id := 1, text := "Q2" }],
    choices := [{ id := 1, question_id := 1, text := "A", is_correct := true },
                { id := 2, question_id := 1, text := "B", is_correct := false },
                { id := 3, question_id := 2, text := "A", is_correct := true },
                { id := 4, question_id := 2, text := "B", is_correct := false }],
    attempts := [], answers := [] }

/-- The quiz row of `quizDB`. -/
def theQuiz : Quiz := { id := 1, course_id := 1, title := "T" }

/-- A submission answering question 1 with the correct choice 1 and
question 2 with the wrong choice 4. -/
def ansForm : Form := [("question_1", "1"), ("question_2", "4")]

/-- The store after `bob` submits `ansForm` against `quizDB`. -/
def ansDB : DB :=
  { quizDB with
      attempts := [{ id := 1, quiz_id := 1, student_id := 2, score := some 50, completed := true }],
      answers := [{ attempt_id := 1, question_id := 1, choice_id := 1 },
                  { attempt_id := 1, question_id := 2, choice_id := 4 }] }

/-- A submission answering question 1 with choice 1 and question 2 with
the dangling identifier 99 (no such choice). -/
def dangForm : Form := [("question_1", "1"), ("question_2", "99")]

/-- The store `take_quiz` commits for `dangForm` against `quizDB`. -/
def dangDB : DB :=
  { quizDB with
      attempts := quizDB.attempts ++ [newAttempt quizDB dangForm theQuiz bob],
      answers := quizDB.answers ++
        (questionsOf quizDB theQuiz.id).filterMap
          (answerFor quizDB dangForm (nextId (quizDB.attempts.map Attempt.id))) }

/-- A completed attempt by `bob` on quiz 1 (stored score irrelevant to
the result viewer). -/
def viewAttempt : Attempt :=
  { id := 1, quiz_id := 1, student_id := 2, score := none, completed := true }

/-- `quizDB` plus `viewAttempt` and its answers: question 1 answered with
choice 1, question 2 answered with the dangling id 99. -/
def viewDB : DB :=
  { quizDB with
      attempts := [viewAttempt],
      answers := [{ attempt_id := 1, question_id := 1, choice_id := 1 },
                  { attempt_id := 1, question_id := 2, choice_id := 99 }] }

/-- The C4 gap scenario payload: question 1 with two choices, no
`q2_text`, then `q3_text`. -/
def gapForm : Form :=
  [("title", "T"), ("q1_text", "Q1"), ("q1_choice1", "A"), ("q1_choice2", "B"),
   ("q1_correct", "1"), ("q3_text", "Q3")]

/-- What `create_quiz` builds from `gapForm` on `db0`: only question 1. -/
def gapDB : DB :=
  { courses := [{ id := 1, instructor_id := 1 }], enrollments := [],
    quizzes := [{ id := 1, course_id := 1, title := "T" }],
    questions := [{ id := 1, quiz_id := 1, text := "Q1" }],
    choices := [{ id := 1, question_id := 1, text := "A", is_correct := true },
                { id := 2, question_id := 1, text := "B", is_correct := false }],
    attempts := [], answers := [] }

/-- The single question parsed from `gapForm`. -/
def gapP1 : ParsedQuestion := { index := 1, text := "Q1", choices := [("A", true), ("B", false)] }

/-- What `create_quiz` builds from a whitespace-only `q1_text`: a
question whose stored text is empty. -/
def wsDB : DB :=
  { courses := [{ id := 1, instructor_id := 1 }], enrollments := [],
    quizzes := [{ id := 1, course_id := 1, title := "T" }],
    questions := [{ id := 1, quiz_id := 1, text := "" }],
    choices := [], attempts := [], answers := [] }

/-- An edit submission that selects choice 2 as question 1's correct
choice (and touches nothing else). -/
def corrForm : Form := [("q1_correct", "2")]

/-- `quizDB` after `edit_quiz` with `corrForm`: choice 2 correct, every
other choice cleared (question 2's correct field was not submitted). -/
def corrDB : DB :=
  { quizDB with
    choices := [{ id := 1, question_id := 1, text := "A", is_correct := false },
                { id := 2, question_id := 1, text := "B", is_correct := true },
                { id := 3, question_id := 2, text := "A", is_correct := false },
                { id := 4, question_id := 2, text := "B", is_correct := false }] }

/-- `quizDB` after `edit_quiz` with an empty form: all `is_correct`
flags cleared, everything else untouched. -/
def clearedDB : DB :=
  { quizDB with
    choices := [{ id := 1, question_id := 1, text := "A", is_correct := false },
                { id := 2, question_id := 1, text := "B", is_correct := false },
                { id := 3, question_id := 2, text := "A", is_correct := false },
                { id := 4, question_id := 2, text := "B", is_correct := false }] }

/-! ## Injectivity of `Nat.repr`

`edit_quiz` compares `str(choice.id)` with the submitted correct-choice
id; that at most one choice can match requires decimal printing to be
injective.  We relate `Nat.toDigitsCore` to a structurally recursive
digit list and invert it with a decoder. -/

theorem toDigitsCore_eq_digs (fuel n : Nat) (acc : List Char) (h : n < fuel) :
    Nat.toDigitsCore 10 fuel n acc = digs n ++ acc := by
  induction fuel generalizing n acc with
  | zero => omega
  | succ f ih =>
    simp only [Nat.toDigitsCore]
    by_cases h10 : n / 10 = 0
    · have hn : n < 10 := by omega
      rw [if_pos h10, digs, dif_pos hn, Nat.mod_eq_of_lt hn]
      simp
    · have hn : ¬ n < 10 := by omega
      conv_rhs => rw [digs]
      rw [if_neg h10, ih (n / 10) _ (by omega), dif_neg hn]
      simp

theorem repr_eq_digs (n : Nat) : Nat.repr n = (digs n).asString := by
  show (Nat.toDigits 10 n).asString = _
  unfold Nat.toDigits
  rw [toDigitsCore_eq_digs (n + 1) n [] (Nat.lt_succ_self n)]
  simp

theorem digitChar_toNat : ∀ n, n < 10 → (Nat.digitChar n).toNat = n + 48 := by decide

theorem foldl_ofDigs_step (l : List Char) (a : Nat) :
    l.foldl (fun a c => a * 10 + (c.toNat - 48)) a =
      a * 10 ^ l.length + l.foldl (fun a c => a * 10 + (c.toNat - 48)) 0 := by
  induction l generalizing a with
  | nil => simp
  | cons c t iht =>
    simp only [List.foldl_cons, List.length_cons]
    rw [iht (a * 10 + (c.toNat - 48)), iht (0 * 10 + (c.toNat - 48))]
    ring

theorem ofDigs_digs (n : Nat) : ofDigs (digs n) = n := by
  induction n using Nat.strong_induction_on with
  | _ n ih =>
    rw [digs]
    split
    · rename_i hn
      simp [ofDigs, digitChar_toNat n hn]
    · rename_i hn
      have hlt : n / 10 < n := Nat.div_lt_self (by omega) (by omega)
      have hrec := ih (n / 10) hlt
      simp only [ofDigs, List.foldl_append, List.foldl_cons, List.foldl_nil] at hrec ⊢
      rw [hrec, digitChar_toNat (n % 10) (Nat.mod_lt n (by omega))]
      omega

theorem repr_injective {m n : Nat} (h : Nat.repr m = Nat.repr n) : m = n := by
  rw [repr_eq_digs, repr_eq_digs] at h
  unfold List.asString at h
  injection h with h
  have := congrArg ofDigs h
  rwa [ofDigs_digs, ofDigs_digs] at this

/-! ## The answer-recording loop of `take_quiz` -/

theorem answerStep_good (db : DB) (form : Form) (aid : Nat)
    (acc : Nat × List AttemptAnswer) (q : Question)
    (h : badSelection form q = false) :
    answerStep db form aid acc q =
      .ok (acc.1 + (if answeredCorrectly db form q then 1 else 0),
           acc.2 ++ (answerFor db form aid q).toList) := by
  unfold badSelection at h
  unfold answerStep answeredCorrectly answerFor
  cases hf : formGet form (questionKey q.id) with
  | none => simp [hf]
  | some s =>
    rw [hf] at h
    by_cases hs : s = ""
    · subst hs; simp
    · have hs' : (s == "") = false := by simpa using hs
      cases hp : pyInt s with
      | none => simp [hs', hp] at h
      | some k => simp [hs', hp]

theorem answerStep_bad (db : DB) (form : Form) (aid : Nat)
    (acc : Nat × List AttemptAnswer) (q : Question)
    (h : badSelection form q = true) :
    answerStep db form aid acc q = .error () := by
  unfold badSelection at h
  unfold answerStep
  cases hf : formGet form (questionKey q.id) with
  | none => rw [hf] at h; simp at h
  | some s =>
    rw [hf] at h
    simp only [Bool.and_eq_true, Bool.not_eq_true', Option.isNone_iff_eq_none] at h
    simp [h.1, h.2]

theorem foldlM_answerStep_ok (db : DB) (form : Form) (aid : Nat) :
    ∀ (qs : List Question) (n : Nat) (acc : List AttemptAnswer),
      (∀ q ∈ qs, badSelection form q = false) →
      qs.foldlM (answerStep db form aid) (n, acc) =
        .ok (n + (qs.filter (answeredCorrectly db form)).length,
             acc ++ qs.filterMap (answerFor db form aid)) := by
  intro qs
  induction qs with
  | nil =>
    intro n acc _
    simp only [List.foldlM_nil, List.filter_nil, List.length_nil, Nat.add_zero,
      List.filterMap_nil, List.append_nil]
    rfl
  | cons q t ih =>
    intro n acc h
    rw [List.foldlM_cons, answerStep_good db form aid (n, acc) q (h q (List.mem_cons_self q t))]
    show t.foldlM _ _ = _
    rw [ih _ _ (fun x hx => h x (List.mem_cons_of_mem q hx))]
    refine congrArg Except.ok (Prod.ext ?_ ?_)
    · simp only [List.filter_cons]
      cases hc : answeredCorrectly db form q
      · simp
      · simp
        omega
    · simp only [List.filterMap_cons]
      cases ha : answerFor db form aid q <;> simp

theorem foldlM_answerStep_error (db : DB) (form : Form) (aid : Nat) :
    ∀ (qs : List Question) (st : Nat × List AttemptAnswer) (q : Question),
      q ∈ qs → badSelection form q = true →
      qs.foldlM (answerStep db form aid) st = .error () := by
  intro qs
  induction qs with
  | nil => intro st q h; simp at h
  | cons q' t ih =>
    intro st q hmem hbad
    rw [List.foldlM_cons]
    rcases List.mem_cons.mp hmem with rfl | ht
    · rw [answerStep_bad db form aid st q hbad]; rfl
    · cases hb' : badSelection form q' with
      | true => rw [answerStep_bad db form aid st q' hb']; rfl
      | false =>
        rw [answerStep_good db form aid st q' hb']
        show t.foldlM _ _ = _
        exact ih _ q ht hbad

theorem take_quiz_ok_eq (db : DB) (u : Actor) (qid : Nat) (form : Form) (quiz : Quiz)
    (hq : db.quizzes.find? (fun qz => qz.id == qid) = some quiz)
    (hi : u.is_instructor = false)
    (hgood : ∀ q ∈ questionsOf db quiz.id, badSelection form q = false) :
    take_quiz db u qid form =
      .ok { db with
              attempts := db.attempts ++ [newAttempt db form quiz u],
              answers := db.answers ++
                (questionsOf db quiz.id).filterMap
                  (answerFor db form (nextId (db.attempts.map Attempt.id))) }
        (takeScore db form quiz) := by
  unfold take_quiz
  rw [hq, hi]
  simp only [Bool.false_eq_true, if_false]
  rw [foldlM_answerStep_ok db form _ _ 0 [] hgood]
  simp [newAttempt, takeScore]

theorem take_quiz_instr_denied (db : DB) (u : Actor) (qid : Nat) (form : Form) (quiz : Quiz)
    (hq : db.quizzes.find? (fun qz => qz.id == qid) = some quiz)
    (hi : u.is_instructor = true) :
    take_quiz db u qid form = .instructorDenied := by
  unfold take_quiz
  rw [hq, hi]
  simp

theorem take_quiz_crashed_of_bad (db : DB) (u : Actor) (qid : Nat) (form : Form)
    (quiz : Quiz) (q : Question)
    (hq : db.quizzes.find? (fun qz => qz.id == qid) = some quiz)
    (hif : u.is_instructor = false)
    (hmem : q ∈ questionsOf db quiz.id) (hb : badSelection form q = true) :
    take_quiz db u qid form = .crashed := by
  unfold take_quiz
  rw [hq, hif]
  simp only [Bool.false_eq_true, if_false]
  rw [foldlM_answerStep_error db form _ _ _ q hmem hb]

theorem take_quiz_ok_extract (db : DB) (u : Actor) (qid : Nat) (form : Form)
    (quiz : Quiz) (db' : DB) (s : ℚ)
    (hq : db.quizzes.find? (fun qz => qz.id == qid) = some quiz)
    (h : take_quiz db u qid form = .ok db' s) :
    u.is_instructor = false ∧ ∀ q ∈ questionsOf db quiz.id, badSelection form q = false := by
  by_cases hi : u.is_instructor = true
  · rw [take_quiz_instr_denied db u qid form quiz hq hi] at h
    cases h
  · have hif : u.is_instructor = false := by simpa using hi
    refine ⟨hif, ?_⟩
    by_contra hbad
    push_neg at hbad
    obtain ⟨q, hmem, hne⟩ := hbad
    have hb : badSelection form q = true := by
      cases hv : badSelection form q
      · exact absurd hv hne
      · rfl
    rw [take_quiz_crashed_of_bad db u qid form quiz q hq hif hmem hb] at h
    cases h

theorem length_filter_le_rat (p : Question → Bool) (l : List Question) :
    ((l.filter p).length : ℚ) ≤ (l.length : ℚ) := by
  exact_mod_cast List.length_filter_le p l

/-- C1: when `take_quiz` (POST) completes for a quiz with `n` questions,
the score it returns and stores on the new attempt equals `100*k/n`,
where `k` counts the answered questions whose resolved choice is marked
correct; it is `0` when `n = 0` and always lies within `[0, 100]`. -/
theorem submitAttempt_score_spec (db : DB) (u : Actor) (qid : Nat) (form : Form)
    (quiz : Quiz) (db' : DB) (s : ℚ)
    (hq : db.quizzes.find? (fun qz => qz.id == qid) = some quiz)
    (h : take_quiz db u qid form = .ok db' s) :
    s = 100 * (((questionsOf db quiz.id).filter (answeredCorrectly db form)).length : ℚ) /
          ((questionsOf db quiz.id).length : ℚ) ∧
    ((questionsOf db quiz.id).length = 0 → s = 0) ∧
    0 ≤ s ∧ s ≤ 100 ∧
    db'.attempts.getLast? = some (newAttempt db form quiz u) ∧
    (newAttempt db form quiz u).score = some s := by
  obtain ⟨hi, hgood⟩ := take_quiz_ok_extract db u qid form quiz db' s hq h
  have heq := take_quiz_ok_eq db u qid form quiz hq hi hgood
  rw [h] at heq
  injection heq with hdb hs
  subst hs
  set k : ℚ := (((questionsOf db quiz.id).filter (answeredCorrectly db form)).length : ℚ) with hk
  set n : ℚ := ((questionsOf db quiz.id).length : ℚ) with hn
  have hk0 : 0 ≤ k := by positivity
  have hkn : k ≤ n := length_filter_le_rat _ _
  have hform : takeScore db form quiz = 100 * k / n := by
    unfold takeScore
    rw [← hk, ← hn]
    by_cases h0 : (questionsOf db quiz.id).length = 0
    · rw [if_neg (by omega)]
      have : n = 0 := by rw [hn]; exact_mod_cast h0
      rw [this, div_zero]
    · rw [if_pos h0]
      have hnz : n ≠ 0 := by
        rw [hn]; exact_mod_cast h0
      field_simp
      ring
  refine ⟨hform, ?_, ?_, ?_, ?_, rfl⟩
  · intro h0
    have : n = 0 := by rw [hn]; exact_mod_cast h0
    rw [hform, this, div_zero]
  · rw [hform]
    by_cases hnz : n = 0
    · rw [hnz, div_zero]
    · have hn0 : 0 < n := lt_of_le_of_ne (le_trans hk0 hkn) (Ne.symm hnz)
      positivity
  · rw [hform]
    by_cases hnz : n = 0
    · rw [hnz, div_zero]; norm_num
    · have hn0 : 0 < n := lt_of_le_of_ne (le_trans hk0 hkn) (Ne.symm hnz)
      rw [div_le_iff₀ hn0]
      nlinarith
  · rw [hdb]
    simp [List.getLast?_concat]

/-- C1 witness: a concrete two-question submission scoring 50. -/
theorem submitAttempt_score_spec_witness :
    takeScore quizDB ansForm theQuiz = 50 ∧
    0 ≤ takeScore quizDB ansForm theQuiz ∧ takeScore quizDB ansForm theQuiz ≤ 100 := by
  have hq : quizDB.quizzes.find? (fun qz => qz.id == 1) = some theQuiz := by decide
  have h := take_quiz_ok_eq quizDB bob 1 ansForm theQuiz hq (by decide) (by decide)
  have hmain := submitAttempt_score_spec quizDB bob 1 ansForm theQuiz _ _ hq h
  refine ⟨?_, hmain.2.2.1, hmain.2.2.2.1⟩
  have hkk : ((questionsOf quizDB theQuiz.id).filter (answeredCorrectly quizDB ansForm)).length = 1 := by
    decide
  have hnn : (questionsOf quizDB theQuiz.id).length = 2 := by decide
  unfold takeScore
  rw [hkk, hnn]
  norm_num

/-- C9: a present, non-empty, non-numeric selection makes `take_quiz`
raise an unhandled `ValueError` at `int()`: the request crashes and no
attempt is committed (the `crashed` outcome carries no store). -/
theorem submitAttempt_nonNumeric_crashes (db : DB) (u : Actor) (qid : Nat) (form : Form)
    (quiz : Quiz) (q : Question) (str : String)
    (hq : db.quizzes.find? (fun qz => qz.id == qid) = some quiz)
    (hif : u.is_instructor = false)
    (hmem : q ∈ questionsOf db quiz.id)
    (hsel : formGet form (questionKey q.id) = some str)
    (hne : str ≠ "") (hbad : pyInt str = none) :
    take_quiz db u qid form = .crashed := by
  apply take_quiz_crashed_of_bad db u qid form quiz q hq hif hmem
  unfold badSelection
  rw [hsel]
  have hne' : (str == "") = false := by simpa using hne
  simp [hne', hbad]

/-- C9 witness: submitting the selection "abc" crashes the request. -/
theorem submitAttempt_nonNumeric_crashes_witness :
    take_quiz quizDB bob 1 [("question_1", "abc")] = .crashed :=
  submitAttempt_nonNumeric_crashes quizDB bob 1 [("question_1", "abc")] theQuiz
    { id := 1, quiz_id := 1, text := "Q1" } "abc"
    (by decide) (by decide) (by decide) (by decide) (by decide) (by decide)

theorem take_quiz_setEnrollments (db : DB) (e : List Enrollment) (u : Actor)
    (qid : Nat) (form : Form) :
    take_quiz { db with enrollments := e } u qid form =
      (take_quiz db u qid form).withEnrollments e := by
  have h1 : ({ db with enrollments := e } : DB).quizzes = db.quizzes := rfl
  have h2 : ({ db with enrollments := e } : DB).attempts = db.attempts := rfl
  have h3 : ({ db with enrollments := e } : DB).courses = db.courses := rfl
  have h4 : ({ db with enrollments := e } : DB).questions = db.questions := rfl
  have h5 : ({ db with enrollments := e } : DB).choices = db.choices := rfl
  have h6 : ({ db with enrollments := e } : DB).answers = db.answers := rfl
  have h7 : ({ db with enrollments := e } : DB).enrollments = e := rfl
  have ha : answerStep { db with enrollments := e } = answerStep db := rfl
  have hqo : questionsOf { db with enrollments := e } = questionsOf db := rfl
  unfold take_quiz
  simp only [h1, h2, h3, h4, h5, h6, h7, ha, hqo]
  cases hfind : db.quizzes.find? (fun qz => qz.id == qid) with
  | none => rfl
  | some quiz =>
    by_cases hi : u.is_instructor = true
    · simp [hi, TakeResult.withEnrollments]
    · have hif : u.is_instructor = false := by simpa using hi
      rw [hif]
      simp only [Bool.false_eq_true, if_false]
      cases hfold : (questionsOf db quiz.id).foldlM
          (answerStep db form (nextId (db.attempts.map Attempt.id))) (0, []) with
      | error a => simp [TakeResult.withEnrollments]
      | ok res => simp [TakeResult.withEnrollments]

/-- C10: `take_quiz` never consults the enrollments table — its outcome
for any store is the outcome for the same store with the enrollments
table replaced arbitrarily (in particular empty) — and for any
non-instructor actor whose selections parse, the attempt is accepted,
graded and committed. -/
theorem submitAttempt_ignores_enrollment :
    (∀ (db : DB) (e : List Enrollment) (u : Actor) (qid : Nat) (form : Form),
       take_quiz { db with enrollments := e } u qid form =
         (take_quiz db u qid form).withEnrollments e) ∧
    (∀ (db : DB) (u : Actor) (qid : Nat) (form : Form) (quiz : Quiz),
       db.quizzes.find? (fun qz => qz.id == qid) = some quiz →
       u.is_instructor = false →
       (∀ q ∈ questionsOf db quiz.id, badSelection form q = false) →
       ∃ db2, take_quiz db u qid form = .ok db2 (takeScore db form quiz)) := by
  refine ⟨take_quiz_setEnrollments, ?_⟩
  intro db u qid form quiz hq hif hgood
  exact ⟨_, take_quiz_ok_eq db u qid form quiz hq hif hgood⟩

/-- C10 witness: `bob` has no enrollment at all in `quizDB`, yet the
attempt is accepted and graded. -/
theorem submitAttempt_ignores_enrollment_witness :
    quizDB.enrollments = [] ∧
    ∃ db2, take_quiz quizDB bob 1 ansForm = .ok db2 (takeScore quizDB ansForm theQuiz) :=
  ⟨rfl,
   submitAttempt_ignores_enrollment.2 quizDB bob 1 ansForm theQuiz
     (by decide) (by decide) (by decide)⟩

/-! ## Per-question answer rows (C5) -/

theorem answerFor_qid (db : DB) (form : Form) (aid : Nat) (q : Question) (a : AttemptAnswer)
    (h : answerFor db form aid q = some a) : a.question_id = q.id := by
  unfold answerFor at h
  split at h
  · cases h
  · split at h
    · cases h
    · split at h
      · cases h
      · injection h with h
        subst h
        rfl

theorem filterMap_answerFor_no_qid (db : DB) (form : Form) (aid : Nat)
    (t : List Question) (x : Nat) (hx : x ∉ t.map Question.id) :
    (t.filterMap (answerFor db form aid)).filter (fun a => a.question_id == x) = [] := by
  rw [List.filter_eq_nil_iff]
  intro a ha
  obtain ⟨q2, hq2mem, hq2⟩ := List.mem_filterMap.mp ha
  have hqid : a.question_id = q2.id := answerFor_qid db form aid q2 a hq2
  simp only [hqid, beq_iff_eq]
  intro hEq
  exact hx (List.mem_map.mpr ⟨q2, hq2mem, hEq⟩)

theorem filterMap_answerFor_filter (db : DB) (form : Form) (aid : Nat)
    (qs : List Question) (q : Question)
    (hnd : (qs.map Question.id).Nodup) (hmem : q ∈ qs) :
    (qs.filterMap (answerFor db form aid)).filter (fun a => a.question_id == q.id) =
      (answerFor db form aid q).toList := by
  induction qs with
  | nil => cases hmem
  | cons q' t ih =>
    simp only [List.map_cons, List.nodup_cons] at hnd
    obtain ⟨hq'nin, hndt⟩ := hnd
    rcases List.mem_cons.mp hmem with rfl | ht
    · simp only [List.filterMap_cons]
      cases ha : answerFor db form aid q with
      | none =>
        simp only [Option.toList_none]
        exact filterMap_answerFor_no_qid db form aid t q.id hq'nin
      | some a =>
        have haq : a.question_id = q.id := answerFor_qid db form aid q a ha
        simp only [List.filter_cons, haq, beq_self_eq_true, if_true, Option.toList_some]
        rw [filterMap_answerFor_no_qid db form aid t q.id hq'nin]
    · simp only [List.filterMap_cons]
      cases ha : answerFor db form aid q' with
      | none => exact ih hndt ht
      | some a =>
        have haq : a.question_id = q'.id := answerFor_qid db form aid q' a ha
        have hne : (a.question_id == q.id) = false := by
          simp only [haq, beq_eq_false_iff_ne, ne_eq]
          intro hEq
          exact hq'nin (List.mem_map.mpr ⟨q, ht, hEq.symm⟩)
        simp only [List.filter_cons, hne, if_false, Bool.false_eq_true]
        exact ih hndt ht

/-- C5: for each question of the quiz being attempted, `take_quiz`
records no `AttemptAnswer` when no selection is submitted; and exactly
one when a non-empty selection is submitted — carrying the resolved
choice's id when it resolves, and otherwise the submitted raw integer
itself, in which case the question counts as incorrect. -/
theorem submitAttempt_answer_rows (db : DB) (u : Actor) (qid : Nat) (form : Form)
    (quiz : Quiz) (db' : DB) (s : ℚ)
    (hq : db.quizzes.find? (fun qz => qz.id == qid) = some quiz)
    (h : take_quiz db u qid form = .ok db' s)
    (hnd : ((questionsOf db quiz.id).map Question.id).Nodup)
    (q : Question) (hmem : q ∈ questionsOf db quiz.id) :
    (blank (formGet form (questionKey q.id)) = true →
       (db'.answers.drop db.answers.length).filter (fun a => a.question_id == q.id) = []) ∧
    (∀ str, formGet form (questionKey q.id) = some str → str ≠ "" →
       ∃ k, pyInt str = some k ∧
         ((db'.answers.drop db.answers.length).filter (fun a => a.question_id == q.id)).length
             = 1 ∧
         (resolveChoice db k = none →
            (db'.answers.drop db.answers.length).filter (fun a => a.question_id == q.id) =
                [{ attempt_id := nextId (db.attempts.map Attempt.id),
                   question_id := q.id, choice_id := k }] ∧
            answeredCorrectly db form q = false) ∧
         (∀ c, resolveChoice db k = some c →
            (db'.answers.drop db.answers.length).filter (fun a => a.question_id == q.id) =
                [{ attempt_id := nextId (db.attempts.map Attempt.id),
                   question_id := q.id, choice_id := (c.id : Int) }])) := by
  obtain ⟨hi, hgood⟩ := take_quiz_ok_extract db u qid form quiz db' s hq h
  have heq := take_quiz_ok_eq db u qid form quiz hq hi hgood
  rw [h] at heq
  injection heq with hdb hs
  have hdrop : db'.answers.drop db.answers.length =
      (questionsOf db quiz.id).filterMap
        (answerFor db form (nextId (db.attempts.map Attempt.id))) := by
    rw [hdb]
    exact List.drop_left _ _
  rw [hdrop, filterMap_answerFor_filter db form _ _ q hnd hmem]
  constructor
  · intro hblank
    unfold blank at hblank
    unfold answerFor
    cases hf : formGet form (questionKey q.id) with
    | none => simp
    | some str =>
      rw [hf] at hblank
      simp only [beq_iff_eq] at hblank
      simp [hblank]
  · intro str hf hne
    have hbs := hgood q hmem
    unfold badSelection at hbs
    rw [hf] at hbs
    have hne' : (str == "") = false := by simpa using hne
    simp only [hne', Bool.not_false, Bool.true_and, Option.isNone_eq_false_iff,
      Option.isSome_iff_exists] at hbs
    obtain ⟨k, hk⟩ := hbs
    refine ⟨k, hk, ?_, ?_, ?_⟩
    · unfold answerFor
      rw [hf]
      simp [hne', hk]
    · intro hres
      constructor
      · unfold answerFor
        rw [hf]
        simp [hne', hk, hres]
      · unfold answeredCorrectly
        rw [hf]
        simp [hne', hk, hres]
    · intro c hres
      unfold answerFor
      rw [hf]
      simp [hne', hk, hres]

/-- C5 witness: one answered question resolving to a real choice and one
dangling selection (id 99) recorded raw and counted incorrect. -/
theorem submitAttempt_answer_rows_witness :
    (dangDB.answers.drop quizDB.answers.length).filter (fun a => a.question_id == 2) =
        [{ attempt_id := 1, question_id := 2, choice_id := 99 }] ∧
    answeredCorrectly quizDB dangForm { id := 2, quiz_id := 1, text := "Q2" } = false := by
  have hq : quizDB.quizzes.find? (fun qz => qz.id == 1) = some theQuiz := by decide
  have h : take_quiz quizDB bob 1 dangForm = .ok dangDB (takeScore quizDB dangForm theQuiz) :=
    take_quiz_ok_eq quizDB bob 1 dangForm theQuiz hq (by decide) (by decide)
  have T := submitAttempt_answer_rows quizDB bob 1 dangForm theQuiz dangDB
    (takeScore quizDB dangForm theQuiz) hq h (by decide)
    { id := 2, quiz_id := 1, text := "Q2" } (by decide)
  obtain ⟨k, hk, hlen, hnores, hres⟩ := T.2 "99" (by decide) (by decide)
  have hk99 : k = 99 := by
    have : pyInt "99" = some 99 := by decide
    rw [this] at hk
    injection hk with hk
    omega
  subst hk99
  exact hnores (by decide)

/-! ## Result viewer: access control (C3) and dangling tolerance (C7) -/

theorem view_denied_eq (db : DB) (u : Actor) (aid : Nat) (attempt : Attempt)
    (ha : db.attempts.find? (fun a => a.id == aid) = some attempt)
    (hcond : (u.is_instructor || attempt.student_id != u.id) = true) :
    view_attempt_result db u aid = .denied := by
  unfold view_attempt_result
  rw [ha]
  simp [hcond]

theorem view_ok_eq (db : DB) (u : Actor) (aid : Nat) (attempt : Attempt) (quiz : Quiz)
    (ha : db.attempts.find? (fun a => a.id == aid) = some attempt)
    (hqz : db.quizzes.find? (fun qz => qz.id == attempt.quiz_id) = some quiz)
    (hcond : (u.is_instructor || attempt.student_id != u.id) = false) :
    view_attempt_result db u aid =
      .ok attempt (answersByQ db attempt) (correctByQ db quiz.id)
        (studentChoiceByQ db attempt quiz.id) := by
  unfold view_attempt_result
  rw [ha]
  simp [hcond, hqz]

/-- C3: for an existing attempt (in a store satisfying the quiz foreign
key), `view_attempt_result` returns result data if and only if the actor
is the non-instructor owner of the attempt; every other actor gets the
`denied` outcome, which carries no result data. -/
theorem viewAttemptResult_owner_only (db : DB) (u : Actor) (aid : Nat)
    (attempt : Attempt) (quiz : Quiz)
    (ha : db.attempts.find? (fun a => a.id == aid) = some attempt)
    (hqz : db.quizzes.find? (fun qz => qz.id == attempt.quiz_id) = some quiz) :
    ((∃ a ansQ corQ stuQ, view_attempt_result db u aid = .ok a ansQ corQ stuQ) ↔
       (attempt.student_id = u.id ∧ u.is_instructor = false)) ∧
    ((u.is_instructor = true ∨ attempt.student_id ≠ u.id) →
       view_attempt_result db u aid = .denied) := by
  by_cases hcond : (u.is_instructor || attempt.student_id != u.id) = true
  · constructor
    · rw [view_denied_eq db u aid attempt ha hcond]
      constructor
      · rintro ⟨a, x, y, z, hcontra⟩
        cases hcontra
      · rintro ⟨hown, hif⟩
        rw [hif, hown] at hcond
        simp at hcond
    · intro hx
      exact view_denied_eq db u aid attempt ha hcond
  · have hcond' : (u.is_instructor || attempt.student_id != u.id) = false := by
      simpa using hcond
    have hif : u.is_instructor = false := by
      cases hv : u.is_instructor
      · rfl
      · rw [hv] at hcond'
        simp at hcond'
    have hown : attempt.student_id = u.id := by
      rw [hif] at hcond'
      simpa using hcond'
    constructor
    · rw [view_ok_eq db u aid attempt quiz ha hqz hcond']
      constructor
      · intro hx
        exact ⟨hown, hif⟩
      · intro hx
        exact ⟨attempt, _, _, _, rfl⟩
    · intro hx
      exfalso
      rcases hx with h1 | h2
      · rw [h1] at hif
        cases hif
      · exact h2 hown

/-- C3 witness: the owning student gets the data; the instructor — even
quiz owner — is denied. -/
theorem viewAttemptResult_owner_only_witness :
    (∃ a ansQ corQ stuQ, view_attempt_result viewDB bob 1 = .ok a ansQ corQ stuQ) ∧
    view_attempt_result viewDB alice 1 = .denied :=
  ⟨(viewAttemptResult_owner_only viewDB bob 1 viewAttempt theQuiz
      (by decide) (by decide)).1.mpr ⟨by decide, by decide⟩,
   (viewAttemptResult_owner_only viewDB alice 1 viewAttempt theQuiz
      (by decide) (by decide)).2 (Or.inl (by decide))⟩

theorem dictGet_eq_none {α : Type} (l : List (Nat × α)) (k : Nat)
    (h : ∀ p ∈ l, p.1 ≠ k) : dictGet l k = none := by
  unfold dictGet
  have hnone : l.reverse.find? (fun p => p.1 == k) = none := by
    rw [List.find?_eq_none]
    intro p hp
    have := h p (List.mem_reverse.mp hp)
    simpa using this
  rw [hnone]
  rfl

theorem studentChoiceStep_none (db : DB) (attempt : Attempt)
    (m : List (Nat × Choice)) (q : Question)
    (hd : dictGet (answersByQ db attempt) q.id = none) :
    studentChoiceStep db attempt m q = m := by
  unfold studentChoiceStep
  rw [hd]

theorem studentChoiceStep_dangling (db : DB) (attempt : Attempt)
    (m : List (Nat × Choice)) (q : Question) (ans : AttemptAnswer)
    (hd : dictGet (answersByQ db attempt) q.id = some ans)
    (hf : (choicesOf db q.id).find? (fun c => (c.id : Int) == ans.choice_id) = none) :
    studentChoiceStep db attempt m q = m := by
  unfold studentChoiceStep
  rw [hd]
  simp [hf]

theorem studentChoiceStep_some (db : DB) (attempt : Attempt)
    (m : List (Nat × Choice)) (q : Question) (ans : AttemptAnswer) (c : Choice)
    (hd : dictGet (answersByQ db attempt) q.id = some ans)
    (hf : (choicesOf db q.id).find? (fun c2 => (c2.id : Int) == ans.choice_id) = some c) :
    studentChoiceStep db attempt m q = m ++ [(q.id, c)] := by
  unfold studentChoiceStep
  rw [hd]
  simp [hf]

theorem studentChoice_fold_mem (db : DB) (attempt : Attempt) :
    ∀ (qs : List Question) (m : List (Nat × Choice)) (p : Nat × Choice),
      p ∈ qs.foldl (studentChoiceStep db attempt) m →
      p ∈ m ∨ ∃ q2 ∈ qs, p.1 = q2.id ∧ ∃ ans,
        dictGet (answersByQ db attempt) q2.id = some ans ∧
        (choicesOf db q2.id).find? (fun c => (c.id : Int) == ans.choice_id) = some p.2 := by
  intro qs
  induction qs with
  | nil =>
    intro m p hp
    exact Or.inl hp
  | cons q0 t ih =>
    intro m p hp
    rw [List.foldl_cons] at hp
    cases hd : dictGet (answersByQ db attempt) q0.id with
    | none =>
      rw [studentChoiceStep_none db attempt m q0 hd] at hp
      rcases ih m p hp with h1 | ⟨q2, hq2, h2⟩
      · exact Or.inl h1
      · exact Or.inr ⟨q2, List.mem_cons_of_mem _ hq2, h2⟩
    | some ans =>
      cases hf : (choicesOf db q0.id).find? (fun c => (c.id : Int) == ans.choice_id) with
      | none =>
        rw [studentChoiceStep_dangling db attempt m q0 ans hd hf] at hp
        rcases ih m p hp with h1 | ⟨q2, hq2, h2⟩
        · exact Or.inl h1
        · exact Or.inr ⟨q2, List.mem_cons_of_mem _ hq2, h2⟩
      | some c =>
        rw [studentChoiceStep_some db attempt m q0 ans c hd hf] at hp
        rcases ih _ p hp with h1 | ⟨q2, hq2, h2⟩
        · rcases List.mem_append.mp h1 with h3 | h3
          · exact Or.inl h3
          · have hpc : p = (q0.id, c) := by simpa using h3
            subst hpc
            exact Or.inr ⟨q0, List.mem_cons_self q0 t, rfl, ans, hd, hf⟩
        · exact Or.inr ⟨q2, List.mem_cons_of_mem _ hq2, h2⟩

/-- C7: when the owning student views an attempt whose stored answer for
some question no longer matches any of that question's current choices,
the viewer still succeeds and simply omits that question from the
student-choice lookup. -/
theorem viewAttemptResult_dangling_tolerated (db : DB) (u : Actor) (aid : Nat)
    (attempt : Attempt) (quiz : Quiz) (q : Question) (ans : AttemptAnswer)
    (ha : db.attempts.find? (fun a => a.id == aid) = some attempt)
    (hqz : db.quizzes.find? (fun qz => qz.id == attempt.quiz_id) = some quiz)
    (hif : u.is_instructor = false) (hown : attempt.student_id = u.id)
    (hans : dictGet (answersByQ db attempt) q.id = some ans)
    (hdang : (choicesOf db q.id).find? (fun c => (c.id : Int) == ans.choice_id) = none) :
    view_attempt_result db u aid =
      .ok attempt (answersByQ db attempt) (correctByQ db quiz.id)
        (studentChoiceByQ db attempt quiz.id) ∧
    dictGet (studentChoiceByQ db attempt quiz.id) q.id = none := by
  have hcond : (u.is_instructor || attempt.student_id != u.id) = false := by
    rw [hif, hown]
    simp
  refine ⟨view_ok_eq db u aid attempt quiz ha hqz hcond, ?_⟩
  apply dictGet_eq_none
  intro p hp
  rcases studentChoice_fold_mem db attempt (questionsOf db quiz.id) [] p hp with
    h1 | ⟨q2, hq2, hkey, ans2, hans2, hfind2⟩
  · cases h1
  · intro hpk
    have hq2id : q2.id = q.id := by rw [← hkey, hpk]
    rw [hq2id] at hans2 hfind2
    rw [hans] at hans2
    injection hans2 with hans2
    subst hans2
    rw [hdang] at hfind2
    cases hfind2

/-- C7 witness: the answer to question 2 stores choice id 99, which no
current choice of question 2 has; the view succeeds and omits question 2
from the student-choice lookup. -/
theorem viewAttemptResult_dangling_tolerated_witness :
    view_attempt_result viewDB bob 1 =
      .ok viewAttempt (answersByQ viewDB viewAttempt) (correctByQ viewDB 1)
        (studentChoiceByQ viewDB viewAttempt 1) ∧
    dictGet (studentChoiceByQ viewDB viewAttempt 1) 2 = none :=
  viewAttemptResult_dangling_tolerated viewDB bob 1 viewAttempt theQuiz
    { id := 2, quiz_id := 1, text := "Q2" }
    { attempt_id := 1, question_id := 2, choice_id := 99 }
    (by decide) (by decide) (by decide) (by decide) (by decide) (by decide)

/-! ## Authoring: gap truncation (C4) and blank-text handling (C6) -/

theorem parseQuestions_length_le (form : Form) :
    ∀ (fuel start n : Nat), start ≤ n →
      blank (formGet form (qTextKey n)) = true →
      (parseQuestions form fuel start).length ≤ n - start := by
  intro fuel
  induction fuel with
  | zero =>
    intro start n _ _
    simp [parseQuestions]
  | succ f ih =>
    intro start n hle hblank
    unfold parseQuestions
    cases hf : formGet form (qTextKey start) with
    | none => simp
    | some t =>
      cases ht : t == "" with
      | true => simp [ht]
      | false =>
        have hsn : start ≠ n := by
          intro hEq
          subst hEq
          rw [hf] at hblank
          simp [blank] at hblank
          rw [hblank] at ht
          simp at ht
        have hlt : start + 1 ≤ n := by omega
        have := ih (start + 1) n hlt hblank
        simp only [ht, List.length_cons, Bool.false_eq_true, if_false]
        omega

theorem foldl_addChoice_questions (qid : Nat) :
    ∀ (l : List (String × Bool)) (s : DB), (l.foldl (addChoice qid) s).questions = s.questions := by
  intro l
  induction l with
  | nil => intro s; rfl
  | cons tc t ih =>
    intro s
    rw [List.foldl_cons, ih]
    rfl

theorem addQuestion_questions (quizId : Nat) (st : DB) (p : ParsedQuestion) :
    (addQuestion quizId st p).questions =
      st.questions ++ [{ id := nextId (st.questions.map Question.id),
                         quiz_id := quizId, text := p.text }] := by
  unfold addQuestion
  rw [foldl_addChoice_questions]

theorem foldl_addQuestion_length (quizId : Nat) :
    ∀ (ps : List ParsedQuestion) (st : DB),
      ((ps.foldl (addQuestion quizId) st).questions).length = st.questions.length + ps.length := by
  intro ps
  induction ps with
  | nil => intro st; simp
  | cons p t ih =>
    intro st
    rw [List.foldl_cons, ih, addQuestion_questions]
    simp
    omega

theorem create_quiz_ok_questions_length (db : DB) (u : Actor) (cid : Nat) (form : Form)
    (db' : DB) (qzid : Nat)
    (h : create_quiz db u cid form = .ok db' qzid) :
    db'.questions.length =
      db.questions.length + (parseQuestions form (form.length + 1) 1).length := by
  unfold create_quiz at h
  split at h
  · cases h
  · split at h
    · cases h
    · split at h
      · cases h
      · simp only [] at h
        split at h
        · cases h
        · injection h with h1 h2
          rw [← h1, foldl_addQuestion_length]

/-- C4: authoring parses question indices 1, 2, ... and stops at the
first absent-or-empty `q{i}_text`, so a gap at index `n` means fewer
than `n` questions are created; concretely, a payload with `q1_text`,
two choices, no `q2_text`, and `q3_text` creates exactly question 1 and
silently drops question 3. -/
theorem createQuiz_stops_at_gap :
    (∀ (db : DB) (u : Actor) (cid : Nat) (form : Form) (db' : DB) (qzid n : Nat),
       1 ≤ n → blank (formGet form (qTextKey n)) = true →
       create_quiz db u cid form = .ok db' qzid →
       db'.questions.length - db.questions.length < n) ∧
    create_quiz db0 alice 1 gapForm = .ok gapDB 1 := by
  constructor
  · intro db u cid form db' qzid n h1 hblank h
    have hlen := create_quiz_ok_questions_length db u cid form db' qzid h
    have hple := parseQuestions_length_le form (form.length + 1) 1 n h1 hblank
    omega
  · decide

/-- C4 witness: the gap property applied at index 2 of the concrete gap
payload (one question created, so fewer than 2). -/
theorem createQuiz_stops_at_gap_witness :
    gapDB.questions.length - db0.questions.length < 2 :=
  createQuiz_stops_at_gap.1 db0 alice 1 gapForm gapDB 1 2
    (by decide) (by decide) createQuiz_stops_at_gap.2

/-- C6 counterexample: a whitespace-only `q1_text` is truthy in Python,
so a Question IS created, and its stored (stripped) text is empty —
refuting "no created Question or Choice has empty stored text". -/
theorem createQuiz_whitespace_counterexample :
    create_quiz db0 alice 1 [("title", "T"), ("q1_text", " ")] = .ok wsDB 1 ∧
    ∃ q ∈ wsDB.questions, q.text = "" := by
  constructor
  · decide
  · decide

/-- C6 amended: questions and choices whose submitted text is missing or
empty are skipped (an empty question text ends parsing); every parsed
question and choice comes from a present, non-empty submission and
stores its stripped text — which is empty when the submission was
whitespace-only. -/
theorem createQuiz_skips_blank_texts (form : Form) (fuel start : Nat) :
    (blank (formGet form (qTextKey start)) = true → parseQuestions form fuel start = []) ∧
    (∀ p ∈ parseQuestions form fuel start,
       (∃ s2, formGet form (qTextKey p.index) = some s2 ∧ s2 ≠ "" ∧ p.text = pyStrip s2) ∧
       (∀ tc ∈ p.choices, ∃ c, 1 ≤ c ∧ c ≤ 4 ∧ ∃ s2,
          formGet form (qChoiceKey p.index c) = some s2 ∧ s2 ≠ "" ∧ tc.1 = pyStrip s2)) := by
  constructor
  · intro hblank
    cases fuel with
    | zero => rfl
    | succ f =>
      unfold parseQuestions
      unfold blank at hblank
      cases hf : formGet form (qTextKey start) with
      | none => rfl
      | some t =>
        rw [hf] at hblank
        simp [blank] at hblank
        simp [hblank]
  · induction fuel generalizing start with
    | zero =>
      intro p hp
      cases hp
    | succ f ih =>
      intro p hp
      unfold parseQuestions at hp
      cases hf : formGet form (qTextKey start) with
      | none =>
        rw [hf] at hp
        cases hp
      | some t =>
        rw [hf] at hp
        cases ht : t == "" with
        | true =>
          simp only [ht, if_true] at hp
          cases hp
        | false =>
          simp only [ht, Bool.false_eq_true, if_false] at hp
          rcases List.mem_cons.mp hp with rfl | htail
          · refine ⟨⟨t, hf, by simpa using ht, rfl⟩, ?_⟩
            intro tc htc
            obtain ⟨c, hcmem, hc⟩ := List.mem_filterMap.mp htc
            have hcb : 1 ≤ c ∧ c < 1 + 4 := List.mem_range'_1.mp hcmem
            refine ⟨c, hcb.1, by omega, ?_⟩
            revert hc
            cases hg : formGet form (qChoiceKey start c) with
            | none =>
              intro hc
              cases hc
            | some s2 =>
              intro hc
              cases hs2 : s2 == "" with
              | true => simp [hs2] at hc
              | false =>
                simp [hs2] at hc
                exact ⟨s2, rfl, by simpa using hs2, by rw [← hc]⟩
          · exact ih (start + 1) p htail

/-- C6 amended witness: the gap payload — parsing from the missing index
2 yields nothing, and the question parsed at index 1 stores the stripped
texts of its present, non-empty submissions. -/
theorem createQuiz_skips_blank_texts_witness :
    parseQuestions gapForm 7 2 = [] ∧
    ((∃ s2, formGet gapForm (qTextKey gapP1.index) = some s2 ∧ s2 ≠ "" ∧
        gapP1.text = pyStrip s2) ∧
     (∀ tc ∈ gapP1.choices, ∃ c, 1 ≤ c ∧ c ≤ 4 ∧ ∃ s2,
        formGet gapForm (qChoiceKey gapP1.index c) = some s2 ∧ s2 ≠ "" ∧ tc.1 = pyStrip s2)) :=
  ⟨(createQuiz_skips_blank_texts gapForm 7 2).1 (by decide),
   (createQuiz_skips_blank_texts gapForm 7 1).2 gapP1 (by decide)⟩

/-! ## Editing: correctness flags (C2) and frame conditions (C8) -/

theorem edit_quiz_ok_extract (db : DB) (u : Actor) (qid : Nat) (form : Form) (db' : DB)
    (h : edit_quiz db u qid form = .ok db') :
    ∃ quiz, db.quizzes.find? (fun qz => qz.id == qid) = some quiz ∧
      db' = editedDB db form quiz := by
  unfold edit_quiz at h
  split at h
  · cases h
  · split at h
    · cases h
    · split at h
      · cases h
      · split at h
        · cases h
        · injection h with h1
          exact ⟨_, by assumption, h1.symm⟩

theorem list_map_id {α : Type} (f : α → α) (l : List α) (h : ∀ a ∈ l, f a = a) :
    l.map f = l := by
  induction l with
  | nil => rfl
  | cons a t ih =>
    rw [List.map_cons, h a (List.mem_cons_self a t), ih (fun x hx => h x (List.mem_cons_of_mem a hx))]

theorem blank_pyStrip_getD (o : Option String) (h : blank o = true) :
    pyStrip (o.getD "") = "" := by
  cases o with
  | none => rfl
  | some s =>
    unfold blank at h
    have : s = "" := by simpa using h
    subst this
    rfl

theorem editChoice_id (form : Form) (qid : Nat) (c : Choice) :
    (editChoice form qid c).id = c.id := by
  unfold editChoice
  by_cases ht : pyStrip ((formGet form (choiceTextKey c.id)).getD "") ≠ "" <;> simp [ht]

theorem editChoice_question_id (form : Form) (qid : Nat) (c : Choice) :
    (editChoice form qid c).question_id = c.question_id := by
  unfold editChoice
  by_cases ht : pyStrip ((formGet form (choiceTextKey c.id)).getD "") ≠ "" <;> simp [ht]

theorem editChoice_text_blank (form : Form) (qid : Nat) (c : Choice)
    (h : blank (formGet form (choiceTextKey c.id)) = true) :
    (editChoice form qid c).text = c.text := by
  unfold editChoice
  rw [blank_pyStrip_getD _ h]
  simp

theorem editChoice_is_correct (form : Form) (qid : Nat) (c : Choice) :
    (editChoice form qid c).is_correct =
      (match formGet form (qCorrectKey qid) with
       | none => false
       | some s2 => s2 != "" && Nat.repr c.id == s2) := by
  unfold editChoice
  split <;> rfl

theorem editQuizRow_id (form : Form) (quiz qz : Quiz) :
    (editQuizRow form quiz qz).id = qz.id := by
  unfold editQuizRow
  by_cases h1 : qz.id == quiz.id <;>
    by_cases h2 : pyStrip ((formGet form "title").getD "") ≠ "" <;> simp [h1, h2]

theorem editQuizRow_course_id (form : Form) (quiz qz : Quiz) :
    (editQuizRow form quiz qz).course_id = qz.course_id := by
  unfold editQuizRow
  by_cases h1 : qz.id == quiz.id <;>
    by_cases h2 : pyStrip ((formGet form "title").getD "") ≠ "" <;> simp [h1, h2]

theorem editQuizRow_blank (form : Form) (quiz qz : Quiz)
    (hb : blank (formGet form "title") = true) :
    editQuizRow form quiz qz = qz := by
  unfold editQuizRow
  rw [blank_pyStrip_getD _ hb]
  simp

theorem editQuestionRow_id (form : Form) (quiz : Quiz) (q : Question) :
    (editQuestionRow form quiz q).id = q.id := by
  unfold editQuestionRow
  by_cases h1 : q.quiz_id == quiz.id <;>
    by_cases h2 : pyStrip ((formGet form (qTextKey q.id)).getD "") ≠ "" <;> simp [h1, h2]

theorem editQuestionRow_quiz_id (form : Form) (quiz : Quiz) (q : Question) :
    (editQuestionRow form quiz q).quiz_id = q.quiz_id := by
  unfold editQuestionRow
  by_cases h1 : q.quiz_id == quiz.id <;>
    by_cases h2 : pyStrip ((formGet form (qTextKey q.id)).getD "") ≠ "" <;> simp [h1, h2]

theorem editQuestionRow_text_blank (form : Form) (quiz : Quiz) (q : Question)
    (hb : blank (formGet form (qTextKey q.id)) = true) :
    (editQuestionRow form quiz q).text = q.text := by
  unfold editQuestionRow
  rw [blank_pyStrip_getD _ hb]
  by_cases h1 : q.quiz_id == quiz.id <;> simp [h1]

theorem editChoiceRow_id (db : DB) (form : Form) (quiz : Quiz) (c : Choice) :
    (editChoiceRow db form quiz c).id = c.id := by
  unfold editChoiceRow
  cases db.questions.find? (fun q => q.id == c.question_id && q.quiz_id == quiz.id) with
  | none => rfl
  | some q => exact editChoice_id form q.id c

theorem editChoiceRow_question_id (db : DB) (form : Form) (quiz : Quiz) (c : Choice) :
    (editChoiceRow db form quiz c).question_id = c.question_id := by
  unfold editChoiceRow
  cases db.questions.find? (fun q => q.id == c.question_id && q.quiz_id == quiz.id) with
  | none => rfl
  | some q => exact editChoice_question_id form q.id c

theorem editChoiceRow_text_blank (db : DB) (form : Form) (quiz : Quiz) (c : Choice)
    (hb : blank (formGet form (choiceTextKey c.id)) = true) :
    (editChoiceRow db form quiz c).text = c.text := by
  unfold editChoiceRow
  cases db.questions.find? (fun q => q.id == c.question_id && q.quiz_id == quiz.id) with
  | none => rfl
  | some q => exact editChoice_text_blank form q.id c hb

/-- C8: a successful edit touches nothing but the title, texts and
correctness flags: the other four tables are unchanged; every quiz,
question and choice row keeps its position, id and foreign key; the
title is unchanged when the submitted title is missing or empty, and
likewise each question's and choice's text under its own key. -/
theorem editQuiz_frame (db : DB) (u : Actor) (qid : Nat) (form : Form) (db' : DB)
    (h : edit_quiz db u qid form = .ok db') :
    db'.courses = db.courses ∧ db'.enrollments = db.enrollments ∧
    db'.attempts = db.attempts ∧ db'.answers = db.answers ∧
    (blank (formGet form "title") = true → db'.quizzes = db.quizzes) ∧
    (∀ (i : Nat) (qz : Quiz), db.quizzes[i]? = some qz → ∃ qz', db'.quizzes[i]? = some qz' ∧
       qz'.id = qz.id ∧ qz'.course_id = qz.course_id) ∧
    (∀ (i : Nat) (q : Question), db.questions[i]? = some q → ∃ q', db'.questions[i]? = some q' ∧
       q'.id = q.id ∧ q'.quiz_id = q.quiz_id ∧
       (blank (formGet form (qTextKey q.id)) = true → q'.text = q.text)) ∧
    (∀ (i : Nat) (c : Choice), db.choices[i]? = some c → ∃ c', db'.choices[i]? = some c' ∧
       c'.id = c.id ∧ c'.question_id = c.question_id ∧
       (blank (formGet form (choiceTextKey c.id)) = true → c'.text = c.text)) := by
  obtain ⟨quiz, heqq, rfl⟩ := edit_quiz_ok_extract db u qid form db' h
  refine ⟨rfl, rfl, rfl, rfl, ?_, ?_, ?_, ?_⟩
  · intro hb
    show db.quizzes.map (editQuizRow form quiz) = db.quizzes
    exact list_map_id _ _ (fun qz _ => editQuizRow_blank form quiz qz hb)
  · intro i qz hi
    have : (editedDB db form quiz).quizzes[i]? = some (editQuizRow form quiz qz) := by
      show (db.quizzes.map (editQuizRow form quiz))[i]? = _
      rw [List.getElem?_map, hi]
      rfl
    exact ⟨editQuizRow form quiz qz, this,
      editQuizRow_id form quiz qz, editQuizRow_course_id form quiz qz⟩
  · intro i q hi
    have : (editedDB db form quiz).questions[i]? = some (editQuestionRow form quiz q) := by
      show (db.questions.map (editQuestionRow form quiz))[i]? = _
      rw [List.getElem?_map, hi]
      rfl
    exact ⟨editQuestionRow form quiz q, this, editQuestionRow_id form quiz q,
      editQuestionRow_quiz_id form quiz q,
      fun hb => editQuestionRow_text_blank form quiz q hb⟩
  · intro i c hi
    have : (editedDB db form quiz).choices[i]? = some (editChoiceRow db form quiz c) := by
      show (db.choices.map (editChoiceRow db form quiz))[i]? = _
      rw [List.getElem?_map, hi]
      rfl
    exact ⟨editChoiceRow db form quiz c, this, editChoiceRow_id db form quiz c,
      editChoiceRow_question_id db form quiz c,
      fun hb => editChoiceRow_text_blank db form quiz c hb⟩

/-- C8 witness: an empty edit form leaves the quizzes table (and all
rows' texts) untouched. -/
theorem editQuiz_frame_witness :
    clearedDB.attempts = quizDB.attempts ∧ clearedDB.quizzes = quizDB.quizzes := by
  have h : edit_quiz quizDB alice 1 [] = .ok clearedDB := by decide
  have T := editQuiz_frame quizDB alice 1 [] clearedDB h
  exact ⟨T.2.2.1, T.2.2.2.2.1 (by decide)⟩

theorem find?_question_by_id (quizId : Nat) (l : List Question)
    (hnd : (l.map Question.id).Nodup) (q : Question) (hmem : q ∈ l)
    (hqz : (q.quiz_id == quizId) = true) :
    l.find? (fun q3 => q3.id == q.id && q3.quiz_id == quizId) = some q := by
  induction l with
  | nil => cases hmem
  | cons q0 t ih =>
    simp only [List.map_cons, List.nodup_cons] at hnd
    rcases List.mem_cons.mp hmem with rfl | ht
    · rw [List.find?_cons_of_pos]
      simp [hqz]
    · rw [List.find?_cons_of_neg]
      · exact ih hnd.2 ht
      · have hne : q0.id ≠ q.id := by
          intro hEq
          exact hnd.1 (List.mem_map.mpr ⟨q, ht, hEq.symm⟩)
        simp [hne]

theorem filter_length_le_one {α β : Type} (f : α → β) (p : α → Bool) (l : List α)
    (hnd : (l.map f).Nodup)
    (h : ∀ a ∈ l, ∀ b ∈ l, p a = true → p b = true → f a = f b) :
    (l.filter p).length ≤ 1 := by
  cases hfil : l.filter p with
  | nil => simp
  | cons x t =>
    cases t with
    | nil => simp
    | cons y t2 =>
      exfalso
      have hsub : (l.filter p).Sublist l := List.filter_sublist l
      have hndf : ((l.filter p).map f).Nodup := hnd.sublist (hsub.map f)
      rw [hfil] at hndf
      have hx : x ∈ l.filter p := by
        rw [hfil]
        exact List.mem_cons_self _ _
      have hy : y ∈ l.filter p := by
        rw [hfil]
        simp
      have hxl := List.mem_filter.mp hx
      have hyl := List.mem_filter.mp hy
      have hxy := h x hxl.1 y hyl.1 hxl.2 hyl.2
      simp only [List.map_cons, List.nodup_cons] at hndf
      exact hndf.1 (by rw [hxy]; exact List.mem_cons_self _ _)

theorem choicesOf_editedDB (db : DB) (form : Form) (quiz : Quiz) (qid2 : Nat) :
    choicesOf (editedDB db form quiz) qid2 =
      (choicesOf db qid2).map (editChoiceRow db form quiz) := by
  show (db.choices.map (editChoiceRow db form quiz)).filter (fun c => c.question_id == qid2) = _
  rw [List.filter_map]
  unfold choicesOf
  congr 1
  apply List.filter_congr
  intro c _
  show ((editChoiceRow db form quiz c).question_id == qid2) = (c.question_id == qid2)
  rw [editChoiceRow_question_id]

/-- C2 counterexample: an edit whose form omits `q1_correct` leaves
question 1 with ZERO correct choices (the claim says exactly one
regardless of the submission). -/
theorem editQuiz_missing_correct_counterexample :
    edit_quiz quizDB alice 1 [] = .ok clearedDB ∧
    ((choicesOf clearedDB 1).filter (fun c => c.is_correct)).length = 0 :=
  ⟨by decide, by decide⟩

/-- C2 amended: after a successful edit, each choice of a question of the
edited quiz is correct exactly when the submitted `q{question_id}_correct`
value is present, non-empty and equals the decimal string of the choice's
id — hence at most one choice per question is correct (exactly one only
when the value matches some choice; a missing, empty or non-matching
value leaves zero). -/
theorem editQuiz_at_most_one_correct (db : DB) (u : Actor) (qid : Nat) (form : Form)
    (db' : DB) (quiz : Quiz)
    (hq : db.quizzes.find? (fun qz => qz.id == qid) = some quiz)
    (h : edit_quiz db u qid form = .ok db')
    (hndq : (db.questions.map Question.id).Nodup)
    (hndc : (db.choices.map Choice.id).Nodup)
    (q : Question) (hmem : q ∈ questionsOf db quiz.id) :
    (∀ c' ∈ choicesOf db' q.id, c'.is_correct =
       (match formGet form (qCorrectKey q.id) with
        | none => false
        | some s2 => s2 != "" && Nat.repr c'.id == s2)) ∧
    ((choicesOf db' q.id).filter (fun c => c.is_correct)).length ≤ 1 := by
  obtain ⟨quiz2, heqq2, rfl⟩ := edit_quiz_ok_extract db u qid form db' h
  have hquiz : quiz2 = quiz := by
    rw [hq] at heqq2
    injection heqq2 with h2
    exact h2.symm
  subst hquiz
  have hqdb : q ∈ db.questions := (List.mem_filter.mp hmem).1
  have hqqz : (q.quiz_id == quiz2.id) = true := (List.mem_filter.mp hmem).2
  have hchoices := choicesOf_editedDB db form quiz2 q.id
  have hpoint : ∀ c' ∈ choicesOf (editedDB db form quiz2) q.id, c'.is_correct =
      (match formGet form (qCorrectKey q.id) with
       | none => false
       | some s2 => s2 != "" && Nat.repr c'.id == s2) := by
    intro c' hc'
    rw [hchoices] at hc'
    obtain ⟨c, hcmem, rfl⟩ := List.mem_map.mp hc'
    have hcq : c.question_id = q.id := by
      simpa using (List.mem_filter.mp hcmem).2
    have hfind : db.questions.find?
        (fun q3 => q3.id == c.question_id && q3.quiz_id == quiz2.id) = some q := by
      rw [hcq]
      exact find?_question_by_id quiz2.id db.questions hndq q hqdb hqqz
    have hrow : editChoiceRow db form quiz2 c = editChoice form q.id c := by
      unfold editChoiceRow
      rw [hfind]
    rw [hrow, editChoice_is_correct, editChoice_id]
  refine ⟨hpoint, ?_⟩
  apply filter_length_le_one Choice.id
  · rw [hchoices, List.map_map]
    have hcomp : (choicesOf db q.id).map (Choice.id ∘ editChoiceRow db form quiz2) =
        (choicesOf db q.id).map Choice.id := by
      apply List.map_congr_left
      intro c _
      exact editChoiceRow_id db form quiz2 c
    rw [hcomp]
    have hsub : (choicesOf db q.id).Sublist db.choices := List.filter_sublist _
    exact hndc.sublist (hsub.map Choice.id)
  · intro a ha b hb hpa hpb
    have hfa := hpoint a ha
    have hfb := hpoint b hb
    rw [hpa] at hfa
    rw [hpb] at hfb
    revert hfa hfb
    cases hcor : formGet form (qCorrectKey q.id) with
    | none =>
      intro hfa
      cases hfa
    | some s2 =>
      intro hfa hfb
      have ha2 : Nat.repr a.id = s2 := by
        have h3 : (s2 != "" && Nat.repr a.id == s2) = true := hfa.symm
        simp only [Bool.and_eq_true, beq_iff_eq] at h3
        exact h3.2
      have hb2 : Nat.repr b.id = s2 := by
        have h3 : (s2 != "" && Nat.repr b.id == s2) = true := hfb.symm
        simp only [Bool.and_eq_true, beq_iff_eq] at h3
        exact h3.2
      exact repr_injective (ha2.trans hb2.symm)

/-- C2 amended witness: submitting `q1_correct = "2"` makes choice 2 the
unique correct choice of question 1. -/
theorem editQuiz_at_most_one_correct_witness :
    (∀ c' ∈ choicesOf corrDB 1, c'.is_correct =
       (match formGet corrForm (qCorrectKey 1) with
        | none => false
        | some s2 => s2 != "" && Nat.repr c'.id == s2)) ∧
    ((choicesOf corrDB 1).filter (fun c => c.is_correct)).length ≤ 1 :=
  editQuiz_at_most_one_correct quizDB alice 1 corrForm corrDB theQuiz
    (by decide) (by decide) (by decide) (by decide)
    { id := 1, quiz_id := 1, text := "Q1" } (by decide)

end Portal
